import Mathlib

/-!
Shallow embedding of the potdb document engine and its HTTP write/replication
handlers, together with proofs checking the natural-language specification
against the code.

Embedded source files:
* `src/storage/db.ts` (the per-document CAS engine: `parseJSON`, `nextRev`,
  `get`, `put`, `del`, `withDocTransaction` with `casPut` / `casDelete` /
  `casReplace`, `applyRemotePut`, `applyRemoteDel`);
* `src/api/docs.ts` (`docsRouter.post`, the create/update orchestration with
  peer fan-out and rollback);
* `src/replication/index.ts` (`replicationRouter.post`, the receiver).

Modelling decisions, stated once here:
* JSON values are the inductive `JVal`; a JavaScript object is an
  insertion-ordered association list with unique keys (uniqueness is a
  hypothesis where it matters, since `JSON.parse` never produces duplicates).
* All operations on one document key touch only that key in the underlying
  LevelDB store, because each takes (or runs under) the per-`_id` mutex and
  reads/writes only `_id`; so the store is modelled per key as
  `Option Raw`: `none` is LevelDB `notFound`, `some (Raw.json v)` holds bytes
  that parse to the JSON value `v`, `some Raw.corrupt` holds bytes that do not
  parse (source `parseJSON` returns `undefined` on them).
* Nondeterminism of `uuidv4()` is threaded as an explicit string argument; the
  shape of a version-4 UUID string is the predicate `UuidLike`.
* The JavaScript number semantics that `nextRev` uses on a revision's
  generation field is modelled for the cases the engine itself can
  produce; see `jsIntOfDigits`.
-/

/-- A JSON value as produced by `JSON.parse`. Objects are insertion-ordered
association lists (uniqueness of keys is a separate hypothesis where used). -/
inductive JVal where
  | null : JVal
  | bool (b : Bool) : JVal
  | num (n : Int) : JVal
  | str (s : String) : JVal
  | arr (elems : List JVal) : JVal
  | obj (fields : List (String × JVal)) : JVal

/-- A JavaScript object: list of fields of a `JVal.obj`. -/
abbrev JObj := List (String × JVal)

/-- JavaScript truthiness of a value: `null`, `false`, `0` and `""` are falsy;
arrays and objects are always truthy. -/
def truthy : JVal → Bool
  | .null => false
  | .bool b => b
  | .num n => n != 0
  | .str s => s != ""
  | .arr _ => true
  | .obj _ => true

/-- Truthiness of a possibly-`undefined` value (`none` is `undefined`). -/
def truthyO : Option JVal → Bool
  | none => false
  | some v => truthy v

/-- JavaScript strict equality `===` between two values that come from two
distinct `JSON.parse` calls (a stored document and a request body, say): equal
primitives are `===`; objects and arrays are compared by reference and two
separately parsed values are never the same reference, hence never `===`.
Every comparison in the embedded code is of this distinct-provenance kind. -/
def jsStrictEq : JVal → JVal → Bool
  | .null, .null => true
  | .bool a, .bool b => a == b
  | .num a, .num b => a == b
  | .str a, .str b => a == b
  | _, _ => false

/-- `===` lifted to possibly-`undefined` operands (`undefined === undefined`). -/
def jsEqO : Option JVal → Option JVal → Bool
  | none, none => true
  | some a, some b => jsStrictEq a b
  | _, _ => false

/-- The JavaScript expression `x || undefined`: a falsy value becomes
`undefined`, a truthy one is kept. -/
def normV (x : Option JVal) : Option JVal :=
  if truthyO x then x else none

/-- First binding of key `k` in an object (association-list lookup), i.e.
property access on the object. -/
def jget (o : JObj) (k : String) : Option JVal :=
  (o.find? (fun p => p.1 == k)).map (·.2)

/-- JavaScript property access `v.k`: defined on objects, `undefined` on
every other value. -/
def jfieldV (v : JVal) (k : String) : Option JVal :=
  match v with
  | .obj o => jget o k
  | _ => none

/-- Optional-chaining access `x?.k` where `x` may be `undefined`. -/
def jfieldOpt (x : Option JVal) (k : String) : Option JVal :=
  match x with
  | none => none
  | some v => jfieldV v k

/-- The fields a value contributes under object spread: `{...v}` copies an
object's own fields and copies nothing from `undefined` or a primitive.
(Array spread into an object, which would contribute index keys, does not
occur in the embedded code paths nor in any claim.) -/
def objFields : JVal → JObj
  | .obj o => o
  | _ => []

/-- Fields contributed by a possibly-`undefined` value (`{...undefined} = {}`). -/
def objFieldsOpt : Option JVal → JObj
  | none => []
  | some v => objFields v

/-- Object spread `{...a, ...b}` of two objects: `a`'s fields in order with
`b`'s values where `b` also has the key, then `b`'s remaining fields. -/
def spread (a b : JObj) : JObj :=
  (a.map (fun p => match jget b p.1 with
    | some v => (p.1, v)
    | none => p))
  ++ b.filter (fun p => (jget a p.1).isNone)

/-- Setting a property, `o[k] = v` (update in place if present, append if
absent); coincides with `spread o [(k, v)]`. -/
def jset (o : JObj) (k : String) (v : JVal) : JObj :=
  spread o [(k, v)]

/-- The raw bytes stored under one key of the LevelDB store: `json v` stands
for the canonical `JSON.stringify` serialisation of the value `v` (everything
the engine itself writes), `corrupt` for bytes on which `JSON.parse` throws. -/
inductive Raw where
  | json (v : JVal) : Raw
  | corrupt : Raw

/-- The per-key store state: `none` is LevelDB `notFound`. -/
abbrev KState := Option Raw

/-- Embeds the common read pattern `parseJSON(await db.get(_id))` with
`notFound` mapped to `undefined` (source `get` in `storage/db.ts:123` and the
`load`/`existing` reads inside every mutating operation): unparseable bytes
also yield `undefined`, because `parseJSON` swallows the parse error. -/
def load : KState → Option JVal
  | none => none
  | some .corrupt => none
  | some (.json v) => some v

/-- The errors the embedded engine throws: `conflict` carries HTTP status 409
(`conflict: revision mismatch` / `conflict: document does not exist`),
`invalid` status 400 (`invalid: missing _rev for remote put`), and `typeErr`
models an uncaught JavaScript `TypeError` (no `status`), which the HTTP layer
maps to 500. -/
inductive Err where
  | conflict : Err
  | invalid : Err
  | typeErr : Err

/-- The HTTP status an Express handler extracts from a thrown engine error via
`e?.status || 500`. -/
def statusOf : Err → Nat
  | .conflict => 409
  | .invalid => 400
  | .typeErr => 500

/-- The decimal digit character for `d % 10`. -/
def digitChar : Nat → Char
  | 0 => '0' | 1 => '1' | 2 => '2' | 3 => '3' | 4 => '4'
  | 5 => '5' | 6 => '6' | 7 => '7' | 8 => '8' | _ => '9'

/-- Big-endian decimal digits of `n` (empty for `0`), with explicit fuel so
that the definition is structural and kernel-evaluable. -/
def natDigitsAux : Nat → Nat → List Char
  | 0, _ => []
  | fuel + 1, n => if n = 0 then [] else natDigitsAux fuel (n / 10) ++ [digitChar (n % 10)]

/-- Models the JavaScript number-to-string conversion in the template literal
of `nextRev` for a nonnegative integer (decimal digits, as JavaScript prints
every integer below 2^53; generations stay far below that). -/
def natRepr (n : Nat) : String :=
  if n = 0 then "0" else String.mk (natDigitsAux n n)

/-- Value of a big-endian list of decimal digit characters. -/
def digitsVal (cs : List Char) : Nat :=
  cs.foldl (fun acc c => acc * 10 + (c.toNat - 48)) 0

/-- Models the JavaScript expression
`Number.isFinite(Number(s)) ? Number(s) : NaN` that `nextRev` applies to the
part of a `_rev` before its first dash. The model is exact on the strings the
engine itself produces there (nonempty runs of decimal digits, possibly after
a leading plus sign): those denote their decimal value. On every other string
it returns `none` (NaN); the theorems that touch this function restrict the
remaining strings to ones on which real JavaScript `Number` is also NaN (see
`jsNaNChar`), so the exotic finite non-integer parses (a fractional prefix
such as `0.5`, hex or exponent forms) stay outside every statement proved. -/
def jsIntOfDigits (cs : List Char) : Option Nat :=
  let ds := if cs.head? = some '+' then cs.tail else cs
  if ds.isEmpty then none
  else if ds.all Char.isDigit then some (digitsVal ds) else none

/-- A character that cannot occur in any string JavaScript `Number` accepts as
a number (digits, sign, dot, exponent or radix letters, hex digits, the
letters of `Infinity`, whitespace): a string containing such a character is
certainly NaN. -/
def jsNaNChar (c : Char) : Bool :=
  !(c.isDigit || c.isAlpha || c == '+' || c == '.' || c == ' ' || c == '\t' || c == '\n' || c == '\r')

/-- Embeds `nextRev` (`storage/db.ts:111`). The `uuid` argument is the string
drawn from `uuidv4()`; the nonce is its first eight characters
(`uuidv4().slice(0, 8)`). A falsy `prev` (absent or empty) yields generation
1; otherwise the digits before the first dash (when the dash exists and is
not at position 0) are parsed, an unparseable value counts as 0, and the
result is that value plus one. -/
def nextRev (uuid : String) (prev : Option String) : String :=
  let nonce := String.mk (uuid.data.take 8)
  match prev with
  | none => "1-" ++ nonce
  | some p =>
    if p = "" then "1-" ++ nonce
    else
      let n := match p.data.findIdx? (· = '-') with
        | some i => if 0 < i then (jsIntOfDigits (p.data.take i)).getD 0 else 0
        | none => 0
      natRepr (n + 1) ++ "-" ++ nonce

/-- The generation encoded in a revision string, read the way `nextRev` reads
it: the decimal value before the first dash, 0 when missing or unparseable. -/
def genOf (r : String) : Nat :=
  match r.data.findIdx? (· = '-') with
  | some i => if 0 < i then (jsIntOfDigits (r.data.take i)).getD 0 else 0
  | none => 0

/-- Lowercase or uppercase hexadecimal digit. -/
def isHexChar (c : Char) : Bool :=
  c.isDigit || ('a' ≤ c && c ≤ 'f') || ('A' ≤ c && c ≤ 'F')

/-- A well-formed revision token per the specification's data model:
`"<n>-<h>"` with `n` a positive decimal integer (canonically printed, no
leading zero) and `h` an 8-hex-character nonce. -/
def wellFormedRev (r : String) : Bool :=
  let pre := r.data.takeWhile (· ≠ '-')
  match r.data.dropWhile (· ≠ '-') with
  | '-' :: post =>
    !pre.isEmpty && pre.all Char.isDigit && (pre.headD '0' != '0')
      && post.length == 8 && post.all isHexChar
  | _ => false

/-- The properties of a `uuidv4()` result string that this development uses:
36 characters long, the first eight of which are lowercase hex digits (the
`uuid` library prints version-4 UUIDs as lowercase hex groups). -/
def UuidLike (s : String) : Bool :=
  s.length == 36 && (s.data.take 8).all (fun c => c.isDigit || ('a' ≤ c && c ≤ 'f'))

/-- A fixed well-shaped UUID string used by concrete witnesses. -/
def uuidA : String := "01234567-89ab-4cde-8f01-23456789abcd"

/-- A second fixed well-shaped UUID string used by concrete witnesses. -/
def uuidB : String := "89abcdef-0123-4fed-9cba-fedcba987654"

example : UuidLike uuidA = true := by decide
example : nextRev uuidA none = "1-01234567" := by decide
example : nextRev uuidB (some "1-01234567") = "2-89abcdef" := by decide
example : nextRev uuidB (some "x7-zz") = "1-89abcdef" := by decide
example : nextRev uuidB (some "-5-zz") = "1-89abcdef" := by decide
example : genOf "12-abc" = 12 := by decide
example : wellFormedRev "12-0aF34bc9" = true := by decide
example : wellFormedRev "0-0aF34bc9" = false := by decide
example : wellFormedRev "5-0aF34bc" = false := by decide

/-- Embeds source `get` (`storage/db.ts:123`): parse the stored bytes,
`notFound` and unparseable bytes both give `undefined`. -/
def getDoc (s : KState) : Option JVal := load s

/-- The key a write uses, `input._id || uuidv4()` (both `put` at
`storage/db.ts:134` and the POST handler at `api/docs.ts:19` compute it this
way): a truthy `_id` is kept, a falsy or absent one is replaced by a fresh
UUID string. -/
def derivedId (input : JVal) (uuid : String) : JVal :=
  match jfieldV input "_id" with
  | some v => if truthy v then v else .str uuid
  | none => .str uuid

/-- Embeds the CAS put logic shared, line for line, by plain `put`
(`storage/db.ts:133`) and the transaction's `casPut` (`storage/db.ts:243`),
acting on the state of key `k` (the derived `_id`). Checks: when the stored
value is truthy, `input._rev` must be truthy and `===` the stored `_rev`,
else `conflict`; when it is falsy, `input._rev` must be falsy, else
`conflict`. On success it stores `{ ...existing, ...input, _id }` with
`_rev` then overwritten by `nextRev(existing?._rev)` and returns the stored
document. When the CAS passes against a stored `_rev` that is truthy but not
a string, the source crashes in `nextRev` (`prev.indexOf` on a non-string
throws `TypeError`); that is the `typeErr` branch. On error the pair keeps
the state unchanged, as the source throws before `db.put`. -/
def casPut (k : String) (input : JObj) (uuid : String) (s : KState) :
    Except Err JObj × KState :=
  let existing := load s
  let inRev := jget input "_rev"
  if truthyO existing then
    if !truthyO inRev || !jsEqO inRev (jfieldOpt existing "_rev") then
      (.error .conflict, s)
    else
      match jfieldOpt existing "_rev" with
      | some (.str prevR) =>
        let next := jset (jset (spread (objFieldsOpt existing) input) "_id" (.str k))
          "_rev" (.str (nextRev uuid (some prevR)))
        (.ok next, some (.json (.obj next)))
      | _ => (.error .typeErr, s)
  else
    if truthyO inRev then (.error .conflict, s)
    else
      let next := jset (jset (spread (objFieldsOpt existing) input) "_id" (.str k))
        "_rev" (.str (nextRev uuid none))
      (.ok next, some (.json (.obj next)))

/-- Embeds the transaction's `casDelete` (`tx.del`, `storage/db.ts:228`):
when a `prevRev` argument is supplied (`prevRev !== undefined`) the stored
`_rev` and `prevRev`, both normalised by `|| undefined`, must be `===`;
then the key is deleted when the stored value is truthy, else left alone. -/
def casDelete (prevRev : Option JVal) (s : KState) : Except Err Unit × KState :=
  let existing := load s
  let pass :=
    match prevRev with
    | some pv => jsEqO (normV (jfieldOpt existing "_rev")) (normV (some pv))
    | none => true
  if pass then (.ok (), if truthyO existing then none else s)
  else (.error .conflict, s)

/-- Embeds the transaction's `casReplace` (`tx.replaceExact`,
`storage/db.ts:217`): the stored `_rev` and `expectedPrevRev`, both
normalised by `|| undefined`, must be `===`; then `{ ...doc, _id }` is stored
verbatim, with no new `_rev` allocated. -/
def casReplace (k : String) (doc : JVal) (expected : Option JVal) (s : KState) :
    Except Err Unit × KState :=
  let existing := load s
  if jsEqO (normV (jfieldOpt existing "_rev")) (normV expected) then
    (.ok (), some (.json (.obj (jset (objFields doc) "_id" (.str k)))))
  else (.error .conflict, s)

/-- Embeds `applyRemotePut` (`storage/db.ts:281`) at key `k = doc._id` (the
theorems instantiate `doc` with `_id` bound to the string `k`): a falsy
`doc._rev` is `invalid` (400) before anything is read; otherwise the stored
`_rev` and `prevRev`, normalised by `|| undefined`, must be `===`, and on
success `{ ...doc, _id }` is stored verbatim — no new `_rev` is allocated. -/
def applyRemotePut (k : String) (doc : JVal) (prevRev : Option JVal) (s : KState) :
    Except Err JObj × KState :=
  if !truthyO (jfieldV doc "_rev") then (.error .invalid, s)
  else
    let existing := load s
    if jsEqO (normV (jfieldOpt existing "_rev")) (normV prevRev) then
      let toStore := jset (objFields doc) "_id" (.str k)
      (.ok toStore, some (.json (.obj toStore)))
    else (.error .conflict, s)

/-- Embeds `applyRemoteDel` (`storage/db.ts:314`): the stored `_rev` and
`prevRev`, normalised by `|| undefined`, must be `===` (this check runs even
when `prevRev` is absent, unlike `tx.del`); the key is then deleted when the
stored value is truthy, else left alone. -/
def applyRemoteDel (prevRev : Option JVal) (s : KState) : Except Err Unit × KState :=
  let existing := load s
  if jsEqO (normV (jfieldOpt existing "_rev")) (normV prevRev) then
    (.ok (), if truthyO existing then none else s)
  else (.error .conflict, s)

/-- Embeds plain `del` (`storage/db.ts:170`): unconditional idempotent
delete of the key (`notFound` swallowed). -/
def delOp (_s : KState) : KState := none

/-- Embeds the POST `/api/docs` handler (`api/docs.ts:17`) on the state of
the one key it touches. `incoming` is `req.body` (`|| {}` applied first),
`uId` and `uRev` are the `uuidv4()` draws for the key and the revision,
`conflicts` is the list of peers whose `/replicate` response was 409 (the
fan-out itself is network I/O, supplied as an argument). Inside the
transaction: `prev = tx.get()`, `saved = tx.put({ ...incoming, _id })`; a
CAS failure surfaces as its status. On peer conflicts the handler rolls back
while still inside the transaction — `tx.replaceExact(prev, saved._rev)` when
`prev` is truthy, `tx.del(saved._rev)` otherwise — and responds 409;
otherwise it responds 201. The final branch (a truthy non-string `_id`,
whose behaviour would be decided by the LevelDB key coercion, outside this
model) is unreachable under every theorem below. -/
def postDocs (incoming : JVal) (uId uRev : String) (conflicts : List String)
    (s : KState) : Nat × KState :=
  let body := if truthy incoming then incoming else .obj []
  match derivedId body uId with
  | .str k =>
    let prev := load s
    match casPut k (jset (objFields body) "_id" (.str k)) uRev s with
    | (.error e, _) => (statusOf e, s)
    | (.ok saved, s1) =>
      if conflicts.isEmpty then (201, s1)
      else
        if truthyO prev then
          match casReplace k (prev.getD .null) (jget saved "_rev") s1 with
          | (.ok _, s2) => (409, s2)
          | (.error e, s2) => (statusOf e, s2)
        else
          match casDelete (jget saved "_rev") s1 with
          | (.ok _, s2) => (409, s2)
          | (.error e, s2) => (statusOf e, s2)
  | _ => (500, s)

/-- Embeds the POST `/replicate` receiver (`replication/index.ts:91`) on the
state of the key `body._id`: falsy `body`, `body.op` or `body._id` → 400;
`op === 'put'` requires a truthy `doc` with `doc._id === body._id` and
`doc._rev === body.rev`, else 400, then delegates to `applyRemotePut`;
`op === 'del'` delegates to `applyRemoteDel`; any other op → 400. Engine
errors map through `e?.status || 500`. The non-string-`_id` fallback is
unreachable under every theorem below (a truthy `body._id` that is `===`
some `doc._id` string is itself a string in each statement proved). -/
def replicatePost (body : JVal) (s : KState) : Nat × KState :=
  if !truthy body || !truthyO (jfieldV body "op") || !truthyO (jfieldV body "_id") then
    (400, s)
  else if jsEqO (jfieldV body "op") (some (.str "put")) then
    let doc := jfieldV body "doc"
    if !truthyO doc || !jsEqO (jfieldOpt doc "_id") (jfieldV body "_id")
        || !jsEqO (jfieldOpt doc "_rev") (jfieldV body "rev") then (400, s)
    else
      match jfieldV body "_id" with
      | some (.str k) =>
        match applyRemotePut k (doc.getD .null) (jfieldV body "prevRev") s with
        | (.ok _, s1) => (200, s1)
        | (.error e, _) => (statusOf e, s)
      | _ => (500, s)
  else if jsEqO (jfieldV body "op") (some (.str "del")) then
    match applyRemoteDel (jfieldV body "prevRev") s with
    | (.ok _, s1) => (200, s1)
    | (.error e, _) => (statusOf e, s)
  else (400, s)

theorem jget_nil (k : String) : jget [] k = none := rfl

theorem jget_cons (p : String × JVal) (o : JObj) (k : String) :
    jget (p :: o) k = if p.1 = k then some p.2 else jget o k := by
  by_cases h : p.1 = k
  · simp [jget, List.find?_cons_of_pos, h]
  · simp [jget, List.find?_cons_of_neg, h]

theorem jget_append (x y : JObj) (k : String) :
    jget (x ++ y) k = (jget x k).or (jget y k) := by
  simp [jget, List.find?_append, Option.map_or']

theorem jget_mapRepl (a b : JObj) (k : String) :
    jget (a.map (fun p => match jget b p.1 with | some v => (p.1, v) | none => p)) k
      = match jget a k with
        | some v => some ((jget b k).getD v)
        | none => none := by
  induction a with
  | nil => simp [jget]
  | cons p a ih =>
    by_cases hk : p.1 = k
    · subst hk
      rcases hb : jget b p.1 with _ | w <;>
        simp [jget_cons, hb, ih]
    · rcases hb : jget b p.1 with _ | w <;>
        simp [jget_cons, hb, hk, ih]

theorem jget_filterNew (a b : JObj) (k : String) :
    jget (b.filter (fun p => (jget a p.1).isNone)) k
      = if (jget a k).isNone then jget b k else none := by
  induction b with
  | nil => simp [jget]
  | cons q b ih =>
    rw [List.filter_cons]
    by_cases hq : (jget a q.1).isNone
    · by_cases hk : q.1 = k
      · subst hk
        simp [hq, jget_cons, ih]
      · simp [hq, jget_cons, hk, ih]
    · by_cases hk : q.1 = k
      · subst hk
        simp [hq, jget_cons, ih]
      · simp [hq, jget_cons, hk, ih]

theorem jget_spread (a b : JObj) (k : String) :
    jget (spread a b) k = (jget b k).or (jget a k) := by
  rw [spread, jget_append, jget_mapRepl, jget_filterNew]
  rcases ha : jget a k with _ | v <;> rcases hb : jget b k with _ | w <;> simp

theorem jget_jset_self (o : JObj) (k : String) (v : JVal) :
    jget (jset o k v) k = some v := by
  rw [jset, jget_spread, jget_cons]
  simp

theorem jget_jset_other (o : JObj) (k k' : String) (v : JVal) (h : k' ≠ k) :
    jget (jset o k v) k' = jget o k' := by
  rw [jset, jget_spread, jget_cons]
  simp [Ne.symm h, jget]

/-- Re-setting a key to the value it already has is the identity, provided the
object has no duplicate keys (as `JSON.parse` output never does). -/
theorem jset_self_of_mem (o : JObj) (k : String) (v : JVal)
    (hmem : (k, v) ∈ o) (hnd : (o.map Prod.fst).Nodup) :
    jset o k v = o := by
  have hget : jget o k = some v := by
    rcases hf : List.find? (fun p : String × JVal => p.1 == k) o with _ | p0
    · have hx := List.find?_eq_none.1 hf (k, v) hmem
      simp at hx
    · have hk : p0.1 = k := by simpa using List.find?_some hf
      have hpmem : p0 ∈ o := List.mem_of_find?_eq_some hf
      have hv : p0.2 = v := by
        have h1 : Prod.fst p0 = Prod.fst (k, v) := hk
        have := List.inj_on_of_nodup_map hnd hpmem hmem h1
        rw [this]
      unfold jget
      rw [hf]
      simp [hv]
  unfold jset spread
  have hfilter : List.filter (fun p : String × JVal => (jget o p.1).isNone) [(k, v)] = [] := by
    simp [List.filter_cons, hget]
  rw [hfilter, List.append_nil]
  have hmap : ∀ p ∈ o, (match jget [(k, v)] p.1 with
      | some w => (p.1, w)
      | none => p) = p := by
    intro p hp
    by_cases hk : p.1 = k
    · have hpv : p = (k, v) := by
        have h1 : Prod.fst p = Prod.fst (k, v) := hk
        exact List.inj_on_of_nodup_map hnd hp hmem h1
      rw [hpv]
      simp [jget_cons]
    · have hne : ¬ k = p.1 := fun h => hk h.symm
      simp [jget_cons, hne, jget_nil]
  calc o.map _ = o.map id := List.map_congr_left hmap
  _ = o := List.map_id o

theorem digitChar_isDigit (d : Nat) (h : d < 10) : (digitChar d).isDigit = true := by
  interval_cases d <;> rfl

theorem digitChar_toNat (d : Nat) (h : d < 10) : (digitChar d).toNat = 48 + d := by
  interval_cases d <;> rfl

theorem natDigitsAux_zero (fuel : Nat) : natDigitsAux fuel 0 = [] := by
  cases fuel <;> rfl

theorem natDigitsAux_all_digits :
    ∀ fuel n, ((natDigitsAux fuel n).all Char.isDigit) = true := by
  intro fuel
  induction fuel with
  | zero => intro n; rfl
  | succ fuel ih =>
    intro n
    rw [natDigitsAux]
    split
    · rfl
    · simp only [List.all_append, ih, Bool.true_and, List.all_cons, List.all_nil,
        Bool.and_true]
      exact digitChar_isDigit _ (Nat.mod_lt _ (by omega))

theorem digitsVal_append_digit (ds : List Char) (c : Char) :
    digitsVal (ds ++ [c]) = digitsVal ds * 10 + (c.toNat - 48) := by
  simp [digitsVal, List.foldl_append]

theorem digitsVal_natDigitsAux :
    ∀ fuel n, n ≤ fuel → digitsVal (natDigitsAux fuel n) = n := by
  intro fuel
  induction fuel with
  | zero =>
    intro n h
    interval_cases n
    rfl
  | succ fuel ih =>
    intro n h
    rw [natDigitsAux]
    split
    · next h0 => rw [h0]; rfl
    · next h0 =>
      have hlt : n / 10 < n := Nat.div_lt_self (by omega) (by omega)
      rw [digitsVal_append_digit, ih (n / 10) (by omega),
        digitChar_toNat _ (Nat.mod_lt _ (by omega))]
      omega

theorem natDigitsAux_ne_nil :
    ∀ fuel n, 1 ≤ n → n ≤ fuel → natDigitsAux fuel n ≠ [] := by
  intro fuel n h1 h2
  cases fuel with
  | zero => omega
  | succ fuel =>
    rw [natDigitsAux]
    split
    · omega
    · simp

theorem headD_append_of_ne_nil {α : Type} (xs ys : List α) (d : α) (h : xs ≠ []) :
    (xs ++ ys).headD d = xs.headD d := by
  cases xs with
  | nil => exact absurd rfl h
  | cons x xs => rfl

theorem natDigitsAux_head_ne_zero :
    ∀ fuel n, 1 ≤ n → n ≤ fuel → (natDigitsAux fuel n).headD '0' ≠ '0' := by
  intro fuel
  induction fuel with
  | zero => intro n h1 h2; omega
  | succ fuel ih =>
    intro n h1 h2
    rw [natDigitsAux]
    split
    · omega
    · by_cases hq : n / 10 = 0
      · rw [hq, natDigitsAux_zero, List.nil_append]
        have h10 : n < 10 := by omega
        interval_cases n <;> simp [digitChar]
      · rw [headD_append_of_ne_nil _ _ _
          (natDigitsAux_ne_nil fuel (n / 10) (by omega) (by omega))]
        exact ih (n / 10) (by omega) (by omega)

theorem natRepr_data_pos (n : Nat) (h : 1 ≤ n) : (natRepr n).data = natDigitsAux n n := by
  rw [natRepr, if_neg (by omega)]

theorem natRepr_all_digits (n : Nat) : ((natRepr n).data.all Char.isDigit) = true := by
  by_cases h : n = 0
  · subst h; rfl
  · rw [natRepr_data_pos n (by omega)]
    exact natDigitsAux_all_digits n n

theorem natRepr_ne_nil (n : Nat) : (natRepr n).data ≠ [] := by
  by_cases h : n = 0
  · subst h; simp [natRepr]
  · rw [natRepr_data_pos n (by omega)]
    exact natDigitsAux_ne_nil n n (by omega) le_rfl

theorem natRepr_head_ne_zero (n : Nat) (h : 1 ≤ n) :
    ((natRepr n).data.headD '0') ≠ '0' := by
  rw [natRepr_data_pos n h]
  exact natDigitsAux_head_ne_zero n n h le_rfl

theorem isDigit_ne_dash (c : Char) (h : c.isDigit = true) : c ≠ '-' := by
  intro hc
  subst hc
  exact absurd h (by decide)

theorem isDigit_ne_plus (c : Char) (h : c.isDigit = true) : c ≠ '+' := by
  intro hc
  subst hc
  exact absurd h (by decide)

theorem natRepr_no_dash (n : Nat) : ∀ c ∈ (natRepr n).data, c ≠ '-' := by
  intro c hc
  have hd := natRepr_all_digits n
  rw [List.all_eq_true] at hd
  exact isDigit_ne_dash c (hd c hc)

theorem jsIntOfDigits_of_digits (ds : List Char) (hne : ds ≠ [])
    (hd : ds.all Char.isDigit = true) : jsIntOfDigits ds = some (digitsVal ds) := by
  cases ds with
  | nil => exact absurd rfl hne
  | cons c ds =>
    have hc : c.isDigit = true := by
      rw [List.all_eq_true] at hd
      exact hd c (by simp)
    rw [jsIntOfDigits]
    have hplus : ¬ ((c :: ds).head? = some '+') := by
      simp only [List.head?_cons, Option.some.injEq]
      exact isDigit_ne_plus c hc
    rw [if_neg hplus, if_neg (by simp), if_pos hd]

theorem jsIntOfDigits_natRepr (n : Nat) : jsIntOfDigits (natRepr n).data = some n := by
  by_cases h : n = 0
  · subst h; rfl
  · rw [jsIntOfDigits_of_digits _ (natRepr_ne_nil n) (natRepr_all_digits n),
      natRepr_data_pos n (by omega), digitsVal_natDigitsAux n n le_rfl]

theorem findIdx?_dash_append (ds rest : List Char) (h : ∀ c ∈ ds, c ≠ '-') :
    (ds ++ '-' :: rest).findIdx? (· = '-') = some ds.length := by
  rw [List.findIdx?_append]
  have hnone : ds.findIdx? (· = '-') = none := by
    rw [List.findIdx?_eq_none_iff]
    intro c hc
    simpa using h c hc
  simp [hnone, List.findIdx?_cons]

theorem takeWhile_dash_append (ds rest : List Char) (h : ∀ c ∈ ds, c ≠ '-') :
    (ds ++ '-' :: rest).takeWhile (· ≠ '-') = ds
      ∧ (ds ++ '-' :: rest).dropWhile (· ≠ '-') = '-' :: rest := by
  induction ds with
  | nil => simp [List.takeWhile_cons, List.dropWhile_cons]
  | cons c ds ih =>
    have hc : c ≠ '-' := h c (by simp)
    have ih' := ih (fun c hc => h c (by simp [hc]))
    simp only [ne_eq, decide_not] at ih'
    simp [List.takeWhile_cons, List.dropWhile_cons, hc, ih'.1, ih'.2, decide_not]

theorem rev_concat_data (g : Nat) (hs : String) :
    (natRepr g ++ "-" ++ hs).data = (natRepr g).data ++ '-' :: hs.data := by
  simp [String.data_append]

theorem rev_ne_empty (g : Nat) (hs : String) : (natRepr g ++ "-" ++ hs) ≠ "" := by
  intro he
  have hd := congrArg String.data he
  rw [rev_concat_data] at hd
  simp at hd

theorem natRepr_length_pos (n : Nat) : 0 < (natRepr n).data.length :=
  List.length_pos.2 (natRepr_ne_nil n)

theorem nextRev_concat (u : String) (g : Nat) (hs : String) :
    nextRev u (some (natRepr g ++ "-" ++ hs))
      = natRepr (g + 1) ++ "-" ++ String.mk (u.data.take 8) := by
  have hfi : (natRepr g ++ "-" ++ hs).data.findIdx? (· = '-')
      = some (natRepr g).data.length := by
    rw [rev_concat_data]
    exact findIdx?_dash_append _ _ (natRepr_no_dash g)
  have htake : (natRepr g ++ "-" ++ hs).data.take (natRepr g).data.length
      = (natRepr g).data := by
    rw [rev_concat_data]
    exact List.take_left _ _
  rw [nextRev]
  rw [if_neg (rev_ne_empty g hs)]
  simp only [hfi, htake, natRepr_length_pos g, if_pos, jsIntOfDigits_natRepr,
    Option.getD_some]

theorem genOf_concat (g : Nat) (hs : String) :
    genOf (natRepr g ++ "-" ++ hs) = g := by
  have hfi : (natRepr g ++ "-" ++ hs).data.findIdx? (· = '-')
      = some (natRepr g).data.length := by
    rw [rev_concat_data]
    exact findIdx?_dash_append _ _ (natRepr_no_dash g)
  have htake : (natRepr g ++ "-" ++ hs).data.take (natRepr g).data.length
      = (natRepr g).data := by
    rw [rev_concat_data]
    exact List.take_left _ _
  rw [genOf, hfi]
  simp only [htake, natRepr_length_pos g, if_pos, jsIntOfDigits_natRepr,
    Option.getD_some]

/-- Every revision `nextRev` produces has the shape
`<canonical decimal m>-<first 8 uuid chars>` with `m ≥ 1`. -/
theorem nextRev_shape (u : String) (pr : Option String) :
    ∃ m, 1 ≤ m ∧ nextRev u pr = natRepr m ++ "-" ++ String.mk (u.data.take 8) := by
  have hone : ∀ s : String, ("1-" : String) ++ s = natRepr 1 ++ "-" ++ s := by
    intro s
    have h1 : ("1-" : String) = natRepr 1 ++ "-" := by decide
    rw [h1]
  match pr with
  | none => exact ⟨1, le_rfl, hone _⟩
  | some p =>
    by_cases hp : p = ""
    · refine ⟨1, le_rfl, ?_⟩
      rw [nextRev, if_pos hp]
      exact hone _
    · rw [nextRev, if_neg hp]
      exact ⟨_, by omega, rfl⟩

theorem isHexChar_of_lower (c : Char)
    (h : (c.isDigit || ('a' ≤ c && c ≤ 'f')) = true) : isHexChar c = true := by
  rw [isHexChar]
  rw [Bool.or_eq_true] at h
  rcases h with hx | hy
  · simp [hx]
  · simp [hy]

/-- The revision strings built from a generation `m ≥ 1` and the first eight
characters of a UUID are well-formed in the specification's sense. -/
theorem wellFormedRev_mk (m : Nat) (hm : 1 ≤ m) (u : String) (hu : UuidLike u = true) :
    wellFormedRev (natRepr m ++ "-" ++ String.mk (u.data.take 8)) = true := by
  obtain ⟨ud⟩ := u
  rw [UuidLike, Bool.and_eq_true] at hu
  obtain ⟨hlen, hhex⟩ := hu
  have hlen' : ud.length = 36 := by simpa [String.length] using hlen
  have hsplit := takeWhile_dash_append (natRepr m).data (ud.take 8)
    (natRepr_no_dash m)
  rw [wellFormedRev]
  have hdata : (natRepr m ++ "-" ++ String.mk (ud.take 8)).data
      = (natRepr m).data ++ '-' :: (ud.take 8) := rev_concat_data m _
  rw [hdata, hsplit.2]
  simp only [hsplit.1]
  simp only [Bool.and_eq_true]
  refine ⟨⟨⟨⟨?_, ?_⟩, ?_⟩, ?_⟩, ?_⟩
  · simp [natRepr_ne_nil m]
  · exact natRepr_all_digits m
  · have := natRepr_head_ne_zero m hm
    rw [List.headD_eq_head?_getD] at this
    simpa using this
  · simp [List.length_take, hlen']
  · rw [List.all_eq_true]
    intro c hc
    rw [List.all_eq_true] at hhex
    exact isHexChar_of_lower c (hhex c hc)

/-- The stored revision as the engine passes it to `nextRev`
(`existing?._rev`): the `_rev` attribute when present and a string, `none`
for an absent or non-object stored value. -/
def revStrOf (x : Option JVal) : Option String :=
  match jfieldOpt x "_rev" with
  | some (.str r) => some r
  | _ => none

/-- The specification's data-model typing of a stored value: if the key holds
a truthy parsed value, its `_rev` attribute is absent or a string. Every
state the engine itself writes satisfies this; a peer can in principle inject
a non-string `_rev` through `/replicate`, on which the source then crashes
with a `TypeError` inside `nextRev`. -/
def RevTypedState (s : KState) : Prop :=
  ∀ v, load s = some v → truthy v = true →
    jfieldV v "_rev" = none ∨ ∃ r, jfieldV v "_rev" = some (.str r)

theorem casPut_ok (k : String) (input : JObj) (u : String) (s : KState)
    (d : JObj) (s' : KState) (h : casPut k input u s = (.ok d, s')) :
    s' = some (.json (.obj d))
    ∧ jget d "_id" = some (.str k)
    ∧ ∃ m, 1 ≤ m
        ∧ jget d "_rev" = some (.str (natRepr m ++ "-" ++ String.mk (u.data.take 8))) := by
  rw [casPut] at h
  simp only at h
  split at h
  · split at h
    · exact absurd h (by simp)
    · split at h
      · next prevR heq =>
        obtain ⟨m, hm, hshape⟩ := nextRev_shape u (some prevR)
        simp only [Prod.mk.injEq, Except.ok.injEq] at h
        obtain ⟨rfl, rfl⟩ := h
        refine ⟨rfl, ?_, m, hm, ?_⟩
        · rw [jget_jset_other _ _ _ _ (by decide), jget_jset_self]
        · rw [jget_jset_self, hshape]
      · exact absurd h (by simp)
  · split at h
    · exact absurd h (by simp)
    · obtain ⟨m, hm, hshape⟩ := nextRev_shape u none
      simp only [Prod.mk.injEq, Except.ok.injEq] at h
      obtain ⟨rfl, rfl⟩ := h
      refine ⟨rfl, ?_, m, hm, ?_⟩
      · rw [jget_jset_other _ _ _ _ (by decide), jget_jset_self]
      · rw [jget_jset_self, hshape]

theorem casPut_ok_nextRev (k : String) (input : JObj) (u : String)
    (dprev : JObj) (r : String) (hrev : jget dprev "_rev" = some (.str r))
    (d : JObj) (s' : KState)
    (h : casPut k input u (some (.json (.obj dprev))) = (.ok d, s')) :
    jget d "_rev" = some (.str (nextRev u (some r))) := by
  rw [casPut] at h
  simp only [load] at h
  rw [if_pos (show truthyO (some (JVal.obj dprev)) = true from rfl)] at h
  simp only [jfieldOpt, jfieldV] at h
  rw [hrev] at h
  by_cases hb : (!truthyO (jget input "_rev")
      || !jsEqO (jget input "_rev") (some (JVal.str r))) = true
  · rw [if_pos hb] at h
    exact absurd h (by simp)
  · rw [if_neg hb] at h
    simp only [Prod.mk.injEq, Except.ok.injEq] at h
    obtain ⟨rfl, rfl⟩ := h
    rw [jget_jset_self]

/-- One operation on the state of a single document key, as issued by the
engine's public surface: a successful or failed local CAS put (plain `put` or
`tx.put`), the plain or transactional delete, the rollback primitive, the two
remote-apply operations, or a pure read. -/
inductive KOp where
  | localPut (input : JObj) (uuid : String) : KOp
  | localDel : KOp
  | txDel (prevRev : Option JVal) : KOp
  | txReplace (doc : JVal) (expected : Option JVal) : KOp
  | remotePut (doc : JVal) (prevRev : Option JVal) : KOp
  | remoteDel (prevRev : Option JVal) : KOp
  | read : KOp

/-- The state of key `k` after one operation (operations that throw leave the
state unchanged, as the source throws before `db.put`/`db.del`). -/
def stepSt (k : String) (s : KState) : KOp → KState
  | .localPut input u => (casPut k input u s).2
  | .localDel => delOp s
  | .txDel pr => (casDelete pr s).2
  | .txReplace doc e => (casReplace k doc e s).2
  | .remotePut doc pr => (applyRemotePut k doc pr s).2
  | .remoteDel pr => (applyRemoteDel pr s).2
  | .read => s

/-- The state of key `k` after a sequence of operations. -/
def execSt (k : String) (s : KState) (ops : List KOp) : KState :=
  ops.foldl (stepSt k) s

theorem one_dash_concat (s : String) : ("1-" : String) ++ s = natRepr 1 ++ "-" ++ s := by
  have h1 : ("1-" : String) = natRepr 1 ++ "-" := by decide
  rw [h1]

theorem uuid_take8_length (u : String) (hu : UuidLike u = true) :
    (u.data.take 8).length = 8 := by
  obtain ⟨ud⟩ := u
  rw [UuidLike, Bool.and_eq_true] at hu
  have hlen : ud.length = 36 := by simpa [String.length] using hu.1
  simp [List.length_take, hlen]

theorem uuid_take8_hex (u : String) (hu : UuidLike u = true) :
    (u.data.take 8).all isHexChar = true := by
  rw [UuidLike, Bool.and_eq_true] at hu
  rw [List.all_eq_true]
  intro c hc
  rw [List.all_eq_true] at hu
  exact isHexChar_of_lower c (hu.2 c hc)

theorem uuid_ne_empty (u : String) (hu : UuidLike u = true) : u ≠ "" := by
  intro he
  subst he
  exact absurd hu (by decide)

theorem jsIntOfDigits_none_of_nanChar (cs : List Char)
    (h : ∃ c ∈ cs, jsNaNChar c = true) : jsIntOfDigits cs = none := by
  obtain ⟨c, hc, hnan⟩ := h
  simp only [jsNaNChar, Bool.not_eq_true', Bool.or_eq_false_iff] at hnan
  obtain ⟨⟨⟨⟨⟨⟨⟨hdig, _⟩, hplus⟩, _⟩, _⟩, _⟩, _⟩, _⟩ := hnan
  rw [jsIntOfDigits]
  by_cases hh : cs.head? = some '+'
  · rw [if_pos hh]
    cases cs with
    | nil => rfl
    | cons c0 t =>
      simp only [List.head?_cons, Option.some.injEq] at hh
      subst hh
      have hct : c ∈ t := by
        rcases List.mem_cons.1 hc with hceq | hmem
        · subst hceq
          simp at hplus
        · exact hmem
      simp only [List.tail_cons]
      by_cases hemp : (t : List Char).isEmpty = true
      · rw [if_pos hemp]
      · rw [if_neg hemp, if_neg]
        rw [List.all_eq_true]
        intro hall
        have := hall c hct
        rw [hdig] at this
        exact absurd this (by decide)
  · rw [if_neg hh]
    have hne : ¬ (cs.isEmpty = true) := by
      cases cs with
      | nil => exact absurd hc (List.not_mem_nil c)
      | cons a t => simp
    rw [if_neg hne, if_neg]
    rw [List.all_eq_true]
    intro hall
    have := hall c hc
    rw [hdig] at this
    exact absurd this (by decide)

/-- C6: `nextRev` returns `1-<nonce>` for an absent (or empty, hence falsy)
argument; otherwise it parses the substring before the first dash — when that
dash exists at a positive position and the substring is a decimal number `n`,
the result is `<n+1>-<nonce>`; when the substring contains a character that
JavaScript `Number` cannot accept (certainly NaN) or when the dash is missing
or at position 0, the generation is treated as 0 and the result is
`1-<nonce>`. The nonce is always the first eight characters of the drawn
UUIDv4, hence eight hex characters. -/
theorem claim_C6_nextRev (u : String) (hu : UuidLike u = true) :
    (nextRev u none = "1-" ++ String.mk (u.data.take 8))
    ∧ ((u.data.take 8).length = 8 ∧ (u.data.take 8).all isHexChar = true)
    ∧ (∀ p : String, ∀ i, p.data.findIdx? (· = '-') = some i → 0 < i →
        ∀ n, jsIntOfDigits (p.data.take i) = some n →
          nextRev u (some p) = natRepr (n + 1) ++ "-" ++ String.mk (u.data.take 8))
    ∧ (∀ p : String, ∀ i, p.data.findIdx? (· = '-') = some i → 0 < i →
        (∃ c ∈ p.data.take i, jsNaNChar c = true) →
          nextRev u (some p) = "1-" ++ String.mk (u.data.take 8))
    ∧ (∀ p : String, p.data.findIdx? (· = '-') = none →
        nextRev u (some p) = "1-" ++ String.mk (u.data.take 8))
    ∧ (∀ p : String, p.data.findIdx? (· = '-') = some 0 →
        nextRev u (some p) = "1-" ++ String.mk (u.data.take 8)) := by
  have hne : ∀ p : String, ∀ i : Nat, p.data.findIdx? (· = '-') = some i → p ≠ "" := by
    intro p i hfi he
    subst he
    simp at hfi
  refine ⟨rfl, ⟨uuid_take8_length u hu, uuid_take8_hex u hu⟩, ?_, ?_, ?_, ?_⟩
  · intro p i hfi hpos n hn
    rw [nextRev, if_neg (hne p i hfi), hfi]
    simp only [hpos, if_pos, hn, Option.getD_some]
  · intro p i hfi hpos hnan
    rw [nextRev, if_neg (hne p i hfi), hfi]
    simp only [hpos, if_pos, jsIntOfDigits_none_of_nanChar _ hnan, Option.getD_none]
    exact (one_dash_concat _).symm ▸ (one_dash_concat _)
  · intro p hfi
    by_cases hp : p = ""
    · rw [nextRev, if_pos hp]
    · rw [nextRev, if_neg hp, hfi]
      exact one_dash_concat _
  · intro p hfi
    rw [nextRev, if_neg (hne p 0 hfi), hfi]
    simp only [Nat.lt_irrefl, if_neg, if_false]
    exact one_dash_concat _

/-- C6 witness: concrete evaluations of each case at a fixed UUID. -/
theorem claim_C6_nextRev_witness :
    UuidLike uuidA = true
    ∧ nextRev uuidA none = "1-01234567"
    ∧ nextRev uuidA (some "41-9f") = "42-01234567"
    ∧ nextRev uuidA (some "z!-9f") = "1-01234567"
    ∧ nextRev uuidA (some "nodash") = "1-01234567" := by
  have hu : UuidLike uuidA = true := by decide
  have h := claim_C6_nextRev uuidA hu
  refine ⟨hu, by decide, ?_, ?_, ?_⟩
  · have := h.2.2.1 "41-9f" 2 (by decide) (by decide) 41 (by decide)
    rw [this]
    decide
  · have := h.2.2.2.1 "z!-9f" 2 (by decide) (by decide) ⟨'!', by decide, by decide⟩
    rw [this]
    decide
  · have := h.2.2.2.2.1 "nodash" (by decide)
    rw [this]
    decide

/-- C10: a falsy `_id` in the incoming document (absent, or the empty string)
is replaced by the fresh UUID, so the write path never derives the empty
string as a storage key. -/
theorem claim_C10_no_empty_key (input : JVal) (u : String) (hu : UuidLike u = true) :
    derivedId input u ≠ .str ""
    ∧ (truthyO (jfieldV input "_id") = false → derivedId input u = .str u) := by
  constructor
  · cases hf : jfieldV input "_id" with
    | none =>
      simp only [derivedId, hf]
      intro hcon
      injection hcon with h
      exact uuid_ne_empty u hu h
    | some v =>
      by_cases ht : truthy v = true
      · simp only [derivedId, hf, ht, if_true]
        intro hcon
        subst hcon
        exact absurd ht (by decide)
      · simp only [derivedId, hf]
        rw [if_neg ht]
        intro hcon
        injection hcon with h
        exact uuid_ne_empty u hu h
  · intro hf
    cases hfv : jfieldV input "_id" with
    | none => simp only [derivedId, hfv]
    | some v =>
      rw [hfv] at hf
      simp only [derivedId, hfv]
      rw [if_neg]
      simpa [truthyO] using hf

/-- C10 witness: an incoming document whose `_id` is the empty string gets
the fresh UUID as its key, which is not the empty string. -/
theorem claim_C10_no_empty_key_witness :
    UuidLike uuidA = true
    ∧ derivedId (.obj [("_id", .str "")]) uuidA ≠ .str ""
    ∧ (truthyO (jfieldV (.obj [("_id", .str "")]) "_id") = false →
        derivedId (.obj [("_id", .str "")]) uuidA = .str uuidA) :=
  ⟨by decide, (claim_C10_no_empty_key (.obj [("_id", .str "")]) uuidA (by decide)).1,
    (claim_C10_no_empty_key (.obj [("_id", .str "")]) uuidA (by decide)).2⟩

theorem revStrOf_falsy (x : Option JVal) (h : truthyO x = false) : revStrOf x = none := by
  cases x with
  | none => rfl
  | some v =>
    cases v with
    | obj o => exact absurd h (by simp [truthyO, truthy])
    | null => rfl
    | bool b => rfl
    | num n => rfl
    | str s => rfl
    | arr xs => rfl

/-- C2 (amended): `put` raises `CONFLICT`, leaving the store unchanged,
exactly when the CAS precondition fails, where the precondition reads: if a
truthy value is stored under `_id`, `input._rev` must be truthy and `===` the
stored `_rev`; if not, `input._rev` must be falsy (absent, or empty/null-like
— not only absent as the claim stated). On success it stores and returns the
key-wise merge of the existing document and the input (input wins on
overlapping keys) with `_id` forced to the key and `_rev` set to
`nextRev(existing._rev)`. The data-model hypothesis `RevTypedState` restricts
the stored `_rev`, when present, to a string — otherwise the source crashes
in `nextRev` instead of merging. -/
theorem claim_C2_put_cas (k : String) (input : JObj) (u : String) (s : KState)
    (hwt : RevTypedState s) :
    ((if truthyO (load s) then
        truthyO (jget input "_rev") && jsEqO (jget input "_rev") (jfieldOpt (load s) "_rev")
      else !truthyO (jget input "_rev")) = false →
      casPut k input u s = (.error .conflict, s))
    ∧ ((if truthyO (load s) then
        truthyO (jget input "_rev") && jsEqO (jget input "_rev") (jfieldOpt (load s) "_rev")
      else !truthyO (jget input "_rev")) = true →
      ∃ d, casPut k input u s = (.ok d, some (.json (.obj d)))
        ∧ jget d "_id" = some (.str k)
        ∧ jget d "_rev" = some (.str (nextRev u (revStrOf (load s))))
        ∧ ∀ key, key ≠ "_id" → key ≠ "_rev" →
            jget d key = (jget input key).or (jget (objFieldsOpt (load s)) key)) := by
  by_cases hext : truthyO (load s) = true
  · simp only [hext, if_true]
    constructor
    · intro hcond
      have hinner : (!truthyO (jget input "_rev")
          || !jsEqO (jget input "_rev") (jfieldOpt (load s) "_rev")) = true := by
        cases ha : truthyO (jget input "_rev") <;>
          cases hb : jsEqO (jget input "_rev") (jfieldOpt (load s) "_rev") <;>
          simp_all
      rw [casPut]
      simp only
      rw [if_pos hext, if_pos hinner]
    · intro hcond
      rw [Bool.and_eq_true] at hcond
      obtain ⟨ha, hb⟩ := hcond
      obtain ⟨v, hv⟩ : ∃ v, load s = some v := by
        cases hl : load s with
        | none => rw [hl] at hext; exact absurd hext (by simp [truthyO])
        | some v => exact ⟨v, rfl⟩
      have htv : truthy v = true := by
        rw [hv] at hext
        simpa [truthyO] using hext
      rcases hwt v hv htv with hnone | ⟨r, hr⟩
      · rw [hv] at hb
        simp only [jfieldOpt, hnone] at hb
        cases hx : jget input "_rev" with
        | none => rw [hx] at ha; exact absurd ha (by simp [truthyO])
        | some w => rw [hx] at hb; exact absurd hb (by simp [jsEqO])
      · have hinner : (!truthyO (jget input "_rev")
            || !jsEqO (jget input "_rev") (jfieldOpt (load s) "_rev")) = false := by
          simp [ha, hb]
        have hrs : revStrOf (load s) = some r := by
          rw [hv]
          simp only [revStrOf, jfieldOpt, hr]
        refine ⟨jset (jset (spread (objFieldsOpt (load s)) input) "_id" (.str k))
            "_rev" (.str (nextRev u (some r))), ?_, ?_, ?_, ?_⟩
        · rw [casPut]
          simp only
          rw [if_pos hext, if_neg (by simp [hinner]), hv]
          simp only [jfieldOpt, hr, hv]
        · rw [jget_jset_other _ _ _ _ (by decide), jget_jset_self]
        · rw [jget_jset_self, hrs]
        · intro key hk1 hk2
          rw [jget_jset_other _ _ _ _ hk2, jget_jset_other _ _ _ _ hk1, jget_spread]
  · have hext' : truthyO (load s) = false := by simpa using hext
    simp only [hext', Bool.false_eq_true, if_false]
    constructor
    · intro hcond
      have ha : truthyO (jget input "_rev") = true := by
        cases hx : truthyO (jget input "_rev")
        · rw [hx] at hcond; exact absurd hcond (by simp)
        · rfl
      rw [casPut]
      simp only
      rw [if_neg (by simp [hext']), if_pos ha]
    · intro hcond
      have ha : truthyO (jget input "_rev") = false := by
        cases hx : truthyO (jget input "_rev")
        · rfl
        · rw [hx] at hcond; exact absurd hcond (by simp)
      refine ⟨jset (jset (spread (objFieldsOpt (load s)) input) "_id" (.str k))
          "_rev" (.str (nextRev u none)), ?_, ?_, ?_, ?_⟩
      · rw [casPut]
        simp only
        rw [if_neg (by simp [hext']), if_neg (by simp [ha])]
      · rw [jget_jset_other _ _ _ _ (by decide), jget_jset_self]
      · rw [jget_jset_self, revStrOf_falsy _ hext']
      · intro key hk1 hk2
        rw [jget_jset_other _ _ _ _ hk2, jget_jset_other _ _ _ _ hk1, jget_spread]

/-- C2 witness: a create through the CAS put at a concrete input. -/
theorem claim_C2_put_cas_witness :
    RevTypedState (none : KState)
    ∧ ((if truthyO (load (none : KState)) then
        truthyO (jget [(("title" : String), JVal.str "t")] "_rev")
          && jsEqO (jget [(("title" : String), JVal.str "t")] "_rev")
            (jfieldOpt (load (none : KState)) "_rev")
      else !truthyO (jget [(("title" : String), JVal.str "t")] "_rev")) = true)
    ∧ (∃ d, casPut "a" [(("title" : String), JVal.str "t")] uuidA none
          = (.ok d, some (.json (.obj d)))
        ∧ jget d "_id" = some (.str "a")
        ∧ jget d "_rev" = some (.str (nextRev uuidA (revStrOf (load (none : KState)))))
        ∧ ∀ key, key ≠ "_id" → key ≠ "_rev" →
            jget d key = (jget [(("title" : String), JVal.str "t")] key).or
              (jget (objFieldsOpt (load (none : KState))) key)) := by
  have hwt : RevTypedState (none : KState) := by
    intro v hv
    exact absurd hv (by simp [load])
  exact ⟨hwt, by decide,
    (claim_C2_put_cas "a" [(("title" : String), JVal.str "t")] uuidA none hwt).2 (by decide)⟩

/-- C2 counterexample: with no document stored, a put whose input carries the
attribute `_rev` with the (present, falsy) value `""` succeeds and creates the
document, although the claim requires `CONFLICT` whenever `input._rev` is not
absent. -/
theorem claim_C2_put_cas_counterexample :
    jget [(("_id" : String), JVal.str "a"), (("_rev" : String), JVal.str "")] "_rev"
        = some (.str "")
    ∧ casPut "a" [(("_id" : String), JVal.str "a"), (("_rev" : String), JVal.str "")]
        uuidA none
      = (.ok [(("_id" : String), JVal.str "a"), (("_rev" : String), JVal.str "1-01234567")],
         some (.json (.obj [(("_id" : String), JVal.str "a"),
           (("_rev" : String), JVal.str "1-01234567")]))) :=
  ⟨rfl, rfl⟩

/-- C9 (amended): bytes that do not parse as JSON are treated as an absent
document — `get` returns absent, and a put against the corrupt key behaves as
a create: any truthy `input._rev` (not any present `_rev`, as the claim
stated: a falsy one such as `""` also passes) raises `CONFLICT`, while a put
with falsy `_rev` overwrites the corrupt bytes with a fresh generation-1
document. -/
theorem claim_C9_corrupt_as_absent (k : String) (input : JObj) (u : String) :
    getDoc (some Raw.corrupt) = none
    ∧ (truthyO (jget input "_rev") = true →
        casPut k input u (some Raw.corrupt) = (.error .conflict, some Raw.corrupt))
    ∧ (truthyO (jget input "_rev") = false →
        ∃ d, casPut k input u (some Raw.corrupt) = (.ok d, some (.json (.obj d)))
          ∧ jget d "_rev" = some (.str (nextRev u none))
          ∧ genOf (nextRev u none) = 1) := by
  refine ⟨rfl, ?_, ?_⟩
  · intro ha
    rw [casPut]
    simp only
    rw [if_neg (by simp [load, truthyO]), if_pos ha]
  · intro ha
    refine ⟨jset (jset (spread (objFieldsOpt (load (some Raw.corrupt))) input) "_id" (.str k))
        "_rev" (.str (nextRev u none)), ?_, ?_, ?_⟩
    · rw [casPut]
      simp only
      rw [if_neg (by simp [load, truthyO]), if_neg (by simp [ha])]
    · rw [jget_jset_self]
    · show genOf ("1-" ++ String.mk (u.data.take 8)) = 1
      rw [one_dash_concat, genOf_concat]

/-- C9 witness: both branches at concrete inputs over a corrupt stored
value. -/
theorem claim_C9_corrupt_as_absent_witness :
    (truthyO (jget [(("_rev" : String), JVal.str "9-aaaaaaaa")] "_rev") = true
      ∧ casPut "a" [(("_rev" : String), JVal.str "9-aaaaaaaa")] uuidA (some Raw.corrupt)
          = (.error .conflict, some Raw.corrupt))
    ∧ (truthyO (jget ([] : JObj) "_rev") = false
      ∧ ∃ d, casPut "a" ([] : JObj) uuidA (some Raw.corrupt)
            = (.ok d, some (.json (.obj d)))
          ∧ jget d "_rev" = some (.str (nextRev uuidA none))
          ∧ genOf (nextRev uuidA none) = 1) :=
  ⟨⟨by decide, (claim_C9_corrupt_as_absent "a" [(("_rev" : String), JVal.str "9-aaaaaaaa")]
      uuidA).2.1 (by decide)⟩,
   ⟨by decide, (claim_C9_corrupt_as_absent "a" ([] : JObj) uuidA).2.2 (by decide)⟩⟩

/-- C9 counterexample: over corrupt stored bytes, a put carrying the present
`_rev` value `""` succeeds instead of raising `CONFLICT`, refuting the claim's
clause that a put carrying any `_rev` conflicts. -/
theorem claim_C9_corrupt_as_absent_counterexample :
    jget [(("_rev" : String), JVal.str "")] "_rev" = some (.str "")
    ∧ casPut "a" [(("_rev" : String), JVal.str "")] uuidA (some Raw.corrupt)
      = (.ok [(("_rev" : String), JVal.str "1-01234567"), (("_id" : String), JVal.str "a")],
         some (.json (.obj [(("_rev" : String), JVal.str "1-01234567"),
           (("_id" : String), JVal.str "a")]))) :=
  ⟨rfl, rfl⟩

/-- C3 (amended): `applyRemotePut(doc, prevRev)` fails with the
invalid-payload error when `doc._rev` is falsy (absent or empty, also a
falsy non-string); otherwise it succeeds if and only if the currently stored
`_rev` equals `prevRev` after the source's `|| undefined` normalisation —
absent and empty (or otherwise falsy) are identified on both sides, not only
"both absent" — in which case it stores `doc` verbatim with `_id` forced and
never allocates a new `_rev`; on mismatch it returns `CONFLICT` with the
store unchanged. -/
theorem claim_C3_applyRemotePut (k : String) (doc : JVal) (pr : Option JVal) (s : KState) :
    (truthyO (jfieldV doc "_rev") = false →
      applyRemotePut k doc pr s = (.error .invalid, s))
    ∧ (truthyO (jfieldV doc "_rev") = true →
        (jsEqO (normV (jfieldOpt (load s) "_rev")) (normV pr) = false →
          applyRemotePut k doc pr s = (.error .conflict, s))
        ∧ (jsEqO (normV (jfieldOpt (load s) "_rev")) (normV pr) = true →
          ∃ o, doc = .obj o
            ∧ applyRemotePut k doc pr s
                = (.ok (jset o "_id" (.str k)), some (.json (.obj (jset o "_id" (.str k)))))
            ∧ jget (jset o "_id" (.str k)) "_id" = some (.str k)
            ∧ ∀ key, key ≠ "_id" →
                jget (jset o "_id" (.str k)) key = jget o key)) := by
  constructor
  · intro ha
    rw [applyRemotePut, if_pos (by simp [ha])]
  · intro ha
    constructor
    · intro hb
      rw [applyRemotePut, if_neg (by simp [ha]), if_neg (by simp [hb])]
    · intro hb
      obtain ⟨o, rfl⟩ : ∃ o, doc = .obj o := by
        cases doc with
        | obj o => exact ⟨o, rfl⟩
        | null => exact absurd ha (by simp [jfieldV, truthyO])
        | bool b => exact absurd ha (by simp [jfieldV, truthyO])
        | num n => exact absurd ha (by simp [jfieldV, truthyO])
        | str s => exact absurd ha (by simp [jfieldV, truthyO])
        | arr xs => exact absurd ha (by simp [jfieldV, truthyO])
      refine ⟨o, rfl, ?_, jget_jset_self o "_id" (.str k), ?_⟩
      · rw [applyRemotePut, if_neg (by simp [ha]), if_pos hb]
        rfl
      · intro key hk
        exact jget_jset_other o "_id" key (.str k) hk

/-- C3 witness: the three branches at concrete inputs. -/
theorem claim_C3_applyRemotePut_witness :
    (truthyO (jfieldV (.obj [(("_id" : String), JVal.str "a")]) "_rev") = false
      ∧ applyRemotePut "a" (.obj [(("_id" : String), JVal.str "a")]) none none
          = (.error .invalid, none))
    ∧ (truthyO (jfieldV (.obj [(("_id" : String), JVal.str "a"),
          (("_rev" : String), JVal.str "2-89abcdef")]) "_rev") = true
      ∧ jsEqO (normV (jfieldOpt (load (none : KState)) "_rev"))
          (normV (some (JVal.str "1-01234567"))) = false
      ∧ applyRemotePut "a" (.obj [(("_id" : String), JVal.str "a"),
          (("_rev" : String), JVal.str "2-89abcdef")]) (some (JVal.str "1-01234567")) none
          = (.error .conflict, none)
      ∧ ∃ o, JVal.obj [(("_id" : String), JVal.str "a"),
            (("_rev" : String), JVal.str "2-89abcdef")] = .obj o
          ∧ applyRemotePut "a" (.obj [(("_id" : String), JVal.str "a"),
              (("_rev" : String), JVal.str "2-89abcdef")]) none none
              = (.ok (jset o "_id" (.str "a")), some (.json (.obj (jset o "_id" (.str "a")))))
          ∧ jget (jset o "_id" (.str "a")) "_id" = some (.str "a")
          ∧ ∀ key, key ≠ "_id" →
              jget (jset o "_id" (.str "a")) key = jget o key) := by
  refine ⟨⟨by decide, ?_⟩, by decide, by decide, ?_, ?_⟩
  · exact (claim_C3_applyRemotePut "a" (.obj [(("_id" : String), JVal.str "a")])
      none none).1 (by decide)
  · exact ((claim_C3_applyRemotePut "a" (.obj [(("_id" : String), JVal.str "a"),
      (("_rev" : String), JVal.str "2-89abcdef")]) (some (JVal.str "1-01234567")) none).2
      (by decide)).1 (by decide)
  · exact ((claim_C3_applyRemotePut "a" (.obj [(("_id" : String), JVal.str "a"),
      (("_rev" : String), JVal.str "2-89abcdef")]) none none).2
      (by decide)).2 (by decide)

/-- C3 counterexample: with nothing stored under the key, a remote put whose
`prevRev` is the empty string (present, not absent) succeeds, although the
claim permits success only when the stored `_rev` equals `prevRev` or both
are absent — the source's `|| undefined` normalisation identifies `""` with
absent. -/
theorem claim_C3_applyRemotePut_counterexample :
    jfieldOpt (load (none : KState)) "_rev" = none
    ∧ some (JVal.str "") ≠ (none : Option JVal)
    ∧ applyRemotePut "a" (.obj [(("_id" : String), JVal.str "a"),
        (("_rev" : String), JVal.str "1-01234567")]) (some (JVal.str "")) none
      = (.ok [(("_id" : String), JVal.str "a"), (("_rev" : String), JVal.str "1-01234567")],
         some (.json (.obj [(("_id" : String), JVal.str "a"),
           (("_rev" : String), JVal.str "1-01234567")]))) :=
  ⟨rfl, by simp, rfl⟩

/-- C8 (amended): applying the same remote put twice has the second
application fail with `CONFLICT`, provided the record's `doc._rev` differs
from its `prevRev` (after the `|| undefined` normalisation) — which holds for
every change record the engine emits, whose `rev` is a fresh `nextRev` —
because after the first application the stored `_rev` is `doc._rev` and no
longer matches `prevRev`. -/
theorem claim_C8_second_apply_conflicts (k : String) (o : JObj) (pr : Option JVal)
    (s : KState) (d : JObj) (s1 : KState)
    (h1 : applyRemotePut k (.obj o) pr s = (.ok d, s1))
    (hne : jsEqO (normV (jget o "_rev")) (normV pr) = false) :
    applyRemotePut k (.obj o) pr s1 = (.error .conflict, s1) := by
  have ha : truthyO (jfieldV (.obj o) "_rev") = true := by
    by_cases hx : truthyO (jfieldV (.obj o) "_rev") = true
    · exact hx
    · rw [applyRemotePut, if_pos (by simpa using hx)] at h1
      exact absurd h1 (by simp)
  rw [applyRemotePut, if_neg (by simp [ha])] at h1
  by_cases hb : jsEqO (normV (jfieldOpt (load s) "_rev")) (normV pr) = true
  · rw [if_pos hb] at h1
    simp only [Prod.mk.injEq, Except.ok.injEq] at h1
    obtain ⟨rfl, hs1⟩ := h1
    rw [applyRemotePut, if_neg (by simp [ha]), if_neg]
    rw [← hs1]
    simp only [load, jfieldOpt, jfieldV, objFields]
    rw [jget_jset_other o "_id" "_rev" (.str k) (by decide)]
    simp [hne]
  · rw [if_neg hb] at h1
    exact absurd h1 (by simp)

/-- C8 witness: a change record with fresh `rev` applied twice — the first
application succeeds, the second conflicts. -/
theorem claim_C8_second_apply_conflicts_witness :
    applyRemotePut "a" (.obj [(("_id" : String), JVal.str "a"),
        (("_rev" : String), JVal.str "2-89abcdef")]) (some (JVal.str "1-01234567"))
        (some (.json (.obj [(("_id" : String), JVal.str "a"),
          (("_rev" : String), JVal.str "1-01234567")])))
      = (.ok [(("_id" : String), JVal.str "a"), (("_rev" : String), JVal.str "2-89abcdef")],
         some (.json (.obj [(("_id" : String), JVal.str "a"),
           (("_rev" : String), JVal.str "2-89abcdef")])))
    ∧ jsEqO (normV (jget [(("_id" : String), JVal.str "a"),
        (("_rev" : String), JVal.str "2-89abcdef")] "_rev"))
        (normV (some (JVal.str "1-01234567"))) = false
    ∧ applyRemotePut "a" (.obj [(("_id" : String), JVal.str "a"),
        (("_rev" : String), JVal.str "2-89abcdef")]) (some (JVal.str "1-01234567"))
        (some (.json (.obj [(("_id" : String), JVal.str "a"),
          (("_rev" : String), JVal.str "2-89abcdef")])))
      = (.error .conflict,
         some (.json (.obj [(("_id" : String), JVal.str "a"),
           (("_rev" : String), JVal.str "2-89abcdef")]))) :=
  ⟨rfl, by decide,
    claim_C8_second_apply_conflicts "a"
      [(("_id" : String), JVal.str "a"), (("_rev" : String), JVal.str "2-89abcdef")]
      (some (JVal.str "1-01234567"))
      (some (.json (.obj [(("_id" : String), JVal.str "a"),
        (("_rev" : String), JVal.str "1-01234567")])))
      [(("_id" : String), JVal.str "a"), (("_rev" : String), JVal.str "2-89abcdef")]
      (some (.json (.obj [(("_id" : String), JVal.str "a"),
        (("_rev" : String), JVal.str "2-89abcdef")])))
      rfl (by decide)⟩

/-- C8 counterexample: a change record whose `doc._rev` equals its `prevRev`
(never emitted by the engine, but a possible record) applies successfully
twice in a row — the second application does not conflict, refuting the claim
as stated for every change record. -/
theorem claim_C8_second_apply_conflicts_counterexample :
    applyRemotePut "a" (.obj [(("_id" : String), JVal.str "a"),
        (("_rev" : String), JVal.str "1-01234567")]) (some (JVal.str "1-01234567"))
        (some (.json (.obj [(("_id" : String), JVal.str "a"),
          (("_rev" : String), JVal.str "1-01234567")])))
      = (.ok [(("_id" : String), JVal.str "a"), (("_rev" : String), JVal.str "1-01234567")],
         some (.json (.obj [(("_id" : String), JVal.str "a"),
           (("_rev" : String), JVal.str "1-01234567")])))
    ∧ applyRemotePut "a" (.obj [(("_id" : String), JVal.str "a"),
        (("_rev" : String), JVal.str "1-01234567")]) (some (JVal.str "1-01234567"))
        (some (.json (.obj [(("_id" : String), JVal.str "a"),
          (("_rev" : String), JVal.str "1-01234567")])))
      = (.ok [(("_id" : String), JVal.str "a"), (("_rev" : String), JVal.str "1-01234567")],
         some (.json (.obj [(("_id" : String), JVal.str "a"),
           (("_rev" : String), JVal.str "1-01234567")]))) :=
  ⟨rfl, rfl⟩

/-- C5 (amended): after every completed mutation the stored document carries
`_id` equal to its key; `put`/`tx.put` always assign a well-formed
`"<n>-<h>"` revision (`n ≥ 1` in canonical decimal, `h` the 8-hex-char
UUID-derived nonce), while `tx.replaceExact` and `applyRemotePut` store the
supplied document's `_rev` verbatim — well-formed exactly when the supplied
one was, and the claim's unconditional well-formedness fails for them (see
the counterexample). -/
theorem claim_C5_stored_doc_shape :
    (∀ (k : String) (input : JObj) (u : String) (s : KState) (d : JObj) (s' : KState),
      UuidLike u = true → casPut k input u s = (.ok d, s') →
      s' = some (.json (.obj d))
      ∧ jget d "_id" = some (.str k)
      ∧ ∃ r, jget d "_rev" = some (.str r) ∧ wellFormedRev r = true)
    ∧ (∀ (k : String) (doc : JVal) (e : Option JVal) (s s' : KState),
      casReplace k doc e s = (.ok (), s') →
      s' = some (.json (.obj (jset (objFields doc) "_id" (.str k))))
      ∧ jget (jset (objFields doc) "_id" (.str k)) "_id" = some (.str k)
      ∧ ∀ r, jget (objFields doc) "_rev" = some (.str r) →
          jget (jset (objFields doc) "_id" (.str k)) "_rev" = some (.str r))
    ∧ (∀ (k : String) (doc : JVal) (pr : Option JVal) (s : KState) (d : JObj) (s' : KState),
      applyRemotePut k doc pr s = (.ok d, s') →
      s' = some (.json (.obj (jset (objFields doc) "_id" (.str k))))
      ∧ jget (jset (objFields doc) "_id" (.str k)) "_id" = some (.str k)
      ∧ ∀ r, jget (objFields doc) "_rev" = some (.str r) →
          jget (jset (objFields doc) "_id" (.str k)) "_rev" = some (.str r)) := by
  refine ⟨?_, ?_, ?_⟩
  · intro k input u s d s' hu h
    obtain ⟨hs, hid, m, hm, hrev⟩ := casPut_ok k input u s d s' h
    exact ⟨hs, hid, _, hrev, wellFormedRev_mk m hm u hu⟩
  · intro k doc e s s' h
    rw [casReplace] at h
    by_cases hb : jsEqO (normV (jfieldOpt (load s) "_rev")) (normV e) = true
    · rw [if_pos hb] at h
      simp only [Prod.mk.injEq] at h
      refine ⟨h.2.symm, jget_jset_self _ _ _, ?_⟩
      intro r hr
      rw [jget_jset_other _ _ _ _ (by decide), hr]
    · rw [if_neg hb] at h
      exact absurd h (by simp)
  · intro k doc pr s d s' h
    rw [applyRemotePut] at h
    by_cases ha : truthyO (jfieldV doc "_rev") = true
    · rw [if_neg (by simp [ha])] at h
      by_cases hb : jsEqO (normV (jfieldOpt (load s) "_rev")) (normV pr) = true
      · rw [if_pos hb] at h
        simp only [Prod.mk.injEq, Except.ok.injEq] at h
        refine ⟨h.2.symm, jget_jset_self _ _ _, ?_⟩
        intro r hr
        rw [jget_jset_other _ _ _ _ (by decide), hr]
      · rw [if_neg hb] at h
        exact absurd h (by simp)
    · rw [if_pos (by simpa using ha)] at h
      exact absurd h (by simp)

/-- C5 witness: the three mutation kinds at concrete inputs. -/
theorem claim_C5_stored_doc_shape_witness :
    (UuidLike uuidA = true
      ∧ (some (.json (.obj [(("_id" : String), JVal.str "a"),
            (("_rev" : String), JVal.str "1-01234567")])) : KState)
          = some (.json (.obj [(("_id" : String), JVal.str "a"),
            (("_rev" : String), JVal.str "1-01234567")]))
      ∧ jget [(("_id" : String), JVal.str "a"), (("_rev" : String), JVal.str "1-01234567")]
          "_id" = some (.str "a")
      ∧ ∃ r, jget [(("_id" : String), JVal.str "a"),
            (("_rev" : String), JVal.str "1-01234567")] "_rev" = some (.str r)
          ∧ wellFormedRev r = true)
    ∧ (jget (jset (objFields (.obj [(("_id" : String), JVal.str "a"),
          (("_rev" : String), JVal.str "3-0aa9bc12")])) "_id" (.str "a")) "_id"
        = some (.str "a")
      ∧ ∀ r, jget (objFields (JVal.obj [(("_id" : String), JVal.str "a"),
            (("_rev" : String), JVal.str "3-0aa9bc12")])) "_rev" = some (.str r) →
          jget (jset (objFields (JVal.obj [(("_id" : String), JVal.str "a"),
            (("_rev" : String), JVal.str "3-0aa9bc12")])) "_id" (.str "a")) "_rev"
            = some (.str r)) := by
  constructor
  · have h := (claim_C5_stored_doc_shape.1) "a" [(("_id" : String), JVal.str "a")] uuidA
      none [(("_id" : String), JVal.str "a"), (("_rev" : String), JVal.str "1-01234567")]
      (some (.json (.obj [(("_id" : String), JVal.str "a"),
        (("_rev" : String), JVal.str "1-01234567")]))) (by decide) rfl
    exact ⟨by decide, h.1, h.2.1, h.2.2⟩
  · have h := (claim_C5_stored_doc_shape.2.2) "a" (.obj [(("_id" : String), JVal.str "a"),
      (("_rev" : String), JVal.str "3-0aa9bc12")]) (some (JVal.str "")) none
      [(("_id" : String), JVal.str "a"), (("_rev" : String), JVal.str "3-0aa9bc12")]
      (some (.json (.obj [(("_id" : String), JVal.str "a"),
        (("_rev" : String), JVal.str "3-0aa9bc12")]))) rfl
    exact ⟨h.2.1, h.2.2⟩

/-- C5 counterexample: `applyRemotePut` accepts a document whose `_rev` is the
truthy but malformed string `"zzz"` and stores it verbatim — the stored
document's `_rev` is not of the form `<n>-<h>`, refuting the claim's
unconditional well-formedness after every completed mutation. -/
theorem claim_C5_stored_doc_shape_counterexample :
    applyRemotePut "a" (.obj [(("_id" : String), JVal.str "a"),
        (("_rev" : String), JVal.str "zzz")]) none none
      = (.ok [(("_id" : String), JVal.str "a"), (("_rev" : String), JVal.str "zzz")],
         some (.json (.obj [(("_id" : String), JVal.str "a"),
           (("_rev" : String), JVal.str "zzz")])))
    ∧ wellFormedRev "zzz" = false :=
  ⟨rfl, by decide⟩

/-- C4 (amended): over any operation sequence on one key, two successful
local CAS writes with no state-changing operation between them (the claim as
frozen allows *any* interleaving, but an interleaved delete or remote apply
can reset or rewrite the revision — see the counterexample) assign strictly
increasing generations: the second write's generation is the first's plus
one. -/
theorem claim_C4_generation_monotonic (k : String) (s0 : KState) (pre mid : List KOp)
    (in1 in2 : JObj) (u1 u2 : String) (d1 d2 : JObj) (s1 s2 : KState) (r1 r2 : String)
    (h1 : casPut k in1 u1 (execSt k s0 pre) = (.ok d1, s1))
    (hmid : execSt k s1 mid = s1)
    (h2 : casPut k in2 u2 (execSt k s1 mid) = (.ok d2, s2))
    (hr1 : jget d1 "_rev" = some (.str r1))
    (hr2 : jget d2 "_rev" = some (.str r2)) :
    genOf r2 = genOf r1 + 1 ∧ genOf r1 < genOf r2 := by
  obtain ⟨hs1, hid1, m, hm, hrev1⟩ := casPut_ok k in1 u1 (execSt k s0 pre) d1 s1 h1
  rw [hr1] at hrev1
  simp only [Option.some.injEq, JVal.str.injEq] at hrev1
  rw [hmid, hs1] at h2
  have h2rev := casPut_ok_nextRev k in2 u2 d1 r1 hr1 d2 s2 h2
  rw [hr2] at h2rev
  simp only [Option.some.injEq, JVal.str.injEq] at h2rev
  rw [h2rev, hrev1, nextRev_concat, genOf_concat, genOf_concat]
  omega

/-- C4 witness: create then CAS-update with an interleaved read — generations
1 then 2. -/
theorem claim_C4_generation_monotonic_witness :
    casPut "a" [(("_id" : String), JVal.str "a")] uuidA (execSt "a" none [])
        = (.ok [(("_id" : String), JVal.str "a"), (("_rev" : String), JVal.str "1-01234567")],
           some (.json (.obj [(("_id" : String), JVal.str "a"),
             (("_rev" : String), JVal.str "1-01234567")])))
    ∧ execSt "a" (some (.json (.obj [(("_id" : String), JVal.str "a"),
          (("_rev" : String), JVal.str "1-01234567")]))) [KOp.read]
        = some (.json (.obj [(("_id" : String), JVal.str "a"),
            (("_rev" : String), JVal.str "1-01234567")]))
    ∧ genOf "2-89abcdef" = genOf "1-01234567" + 1 ∧ genOf "1-01234567" < genOf "2-89abcdef" := by
  refine ⟨rfl, rfl, ?_⟩
  exact claim_C4_generation_monotonic "a" none [] [KOp.read]
    [(("_id" : String), JVal.str "a")]
    [(("_id" : String), JVal.str "a"), (("_rev" : String), JVal.str "1-01234567")]
    uuidA uuidB
    [(("_id" : String), JVal.str "a"), (("_rev" : String), JVal.str "1-01234567")]
    [(("_id" : String), JVal.str "a"), (("_rev" : String), JVal.str "2-89abcdef")]
    (some (.json (.obj [(("_id" : String), JVal.str "a"),
      (("_rev" : String), JVal.str "1-01234567")])))
    (some (.json (.obj [(("_id" : String), JVal.str "a"),
      (("_rev" : String), JVal.str "2-89abcdef")])))
    "1-01234567" "2-89abcdef" rfl rfl rfl rfl rfl

/-- C4 counterexample: with an interleaved (successful) local delete between
two successful local writes, the second write's generation is 1 again — not
strictly greater than the first write's generation 1, refuting the claim for
arbitrary interleaved operations. -/
theorem claim_C4_generation_monotonic_counterexample :
    casPut "a" [(("_id" : String), JVal.str "a")] uuidA none
        = (.ok [(("_id" : String), JVal.str "a"), (("_rev" : String), JVal.str "1-01234567")],
           some (.json (.obj [(("_id" : String), JVal.str "a"),
             (("_rev" : String), JVal.str "1-01234567")])))
    ∧ execSt "a" (some (.json (.obj [(("_id" : String), JVal.str "a"),
          (("_rev" : String), JVal.str "1-01234567")]))) [KOp.localDel] = none
    ∧ casPut "a" [(("_id" : String), JVal.str "a")] uuidB none
        = (.ok [(("_id" : String), JVal.str "a"), (("_rev" : String), JVal.str "1-89abcdef")],
           some (.json (.obj [(("_id" : String), JVal.str "a"),
             (("_rev" : String), JVal.str "1-89abcdef")])))
    ∧ ¬ genOf "1-01234567" < genOf "1-89abcdef" :=
  ⟨rfl, rfl, rfl, by decide⟩

theorem truthy_str_rev (m : Nat) (hs : String) :
    truthy (.str (natRepr m ++ "-" ++ hs)) = true := by
  have hne := rev_ne_empty m hs
  simp [truthy, hne]

/-- C1 (amended): when the local `tx.put` of a POST `/api/docs` request
succeeds and at least one peer reports a replication conflict, the handler
rolls back under the still-held lock (`tx.replaceExact(prev, saved._rev)`
when a document was previously stored, `tx.del(saved._rev)` otherwise) and
responds 409, and the stored state afterwards equals the state before the
request — provided the bytes previously stored at the key, if any, parsed as
a document carrying its own key as `_id` (true of every state the engine
writes). When the prior bytes do not parse, the rollback instead deletes them
(see the counterexample). -/
theorem claim_C1_conflict_rollback (incoming : JVal) (uId uRev : String)
    (conflicts : List String) (s : KState) (k : String) (saved : JObj) (s1 : KState)
    (hb : truthy incoming = true)
    (hk : derivedId incoming uId = .str k)
    (hc : conflicts ≠ [])
    (hprior : s = none ∨ ∃ o, s = some (.json (.obj o))
        ∧ (("_id" : String), JVal.str k) ∈ o ∧ (o.map Prod.fst).Nodup)
    (hput : casPut k (jset (objFields incoming) "_id" (.str k)) uRev s = (.ok saved, s1)) :
    postDocs incoming uId uRev conflicts s = (409, s) := by
  obtain ⟨hs1, hid, m, hm, hrev⟩ :=
    casPut_ok k (jset (objFields incoming) "_id" (.str k)) uRev s saved s1 hput
  have hce : conflicts.isEmpty = false := by
    cases conflicts with
    | nil => exact absurd rfl hc
    | cons a l => rfl
  have htr : truthy (.str (natRepr m ++ "-" ++ String.mk (uRev.data.take 8))) = true :=
    truthy_str_rev m _
  rw [postDocs]
  simp only [hb, if_true, hk]
  rw [hput]
  simp only [hce, Bool.false_eq_true, if_false]
  rcases hprior with rfl | ⟨o, rfl, hmem, hnd⟩
  · simp only [load, truthyO, Bool.false_eq_true, if_false]
    rw [hrev]
    simp only [casDelete]
    simp only [hs1, load, jfieldOpt, jfieldV, hrev, normV, truthyO, htr, if_true]
    rw [if_pos (by simp [jsEqO, jsStrictEq])]
    simp [truthy]
  · simp only [load, truthyO, truthy, if_true, Option.getD_some]
    rw [casReplace]
    simp only [hs1, load, jfieldOpt, jfieldV, hrev, normV, truthyO, htr, if_true]
    rw [if_pos (by simp [jsEqO, jsStrictEq])]
    simp only [objFields]
    rw [jset_self_of_mem o "_id" (JVal.str k) hmem hnd]

/-- C1 witness: a create on an empty key with one conflicting peer is rolled
back to the empty state with status 409. -/
theorem claim_C1_conflict_rollback_witness :
    (["peerB"] : List String) ≠ []
    ∧ postDocs (.obj [(("_id" : String), JVal.str "a"), (("t" : String), JVal.str "x")])
        uuidA uuidB ["peerB"] none = (409, none) :=
  ⟨by simp,
    claim_C1_conflict_rollback
      (.obj [(("_id" : String), JVal.str "a"), (("t" : String), JVal.str "x")])
      uuidA uuidB ["peerB"] none "a"
      [(("_id" : String), JVal.str "a"), (("t" : String), JVal.str "x"),
        (("_rev" : String), JVal.str "1-89abcdef")]
      (some (.json (.obj [(("_id" : String), JVal.str "a"), (("t" : String), JVal.str "x"),
        (("_rev" : String), JVal.str "1-89abcdef")])))
      rfl rfl (by simp) (Or.inl rfl) rfl⟩

/-- C1 counterexample: when the key previously held unparseable bytes, the
rollback path deletes them (the handler sees `prev = undefined`), so the
stored state after the 409 differs from the state before the request,
refuting the claim's unconditional restoration. -/
theorem claim_C1_conflict_rollback_counterexample :
    postDocs (.obj [(("_id" : String), JVal.str "a")]) uuidA uuidB ["peerB"]
        (some Raw.corrupt) = (409, none)
    ∧ (some Raw.corrupt : KState) ≠ none :=
  ⟨rfl, by simp⟩

/-- C7 (amended): the `/replicate` receiver returns 400 with the store
unmodified when the body, its `op` or its `_id` is falsy (absent or empty —
not only "lacking", see the counterexample), when `op` is outside
`{"put","del"}`, or, for a put, when `doc` is falsy or `doc._id !== _id` or
`doc._rev !== rev`; otherwise it delegates to `applyRemotePut` /
`applyRemoteDel` and maps the engine result success → 200 `{ok:true}` with
the new state, `CONFLICT` → 409, and the engine's invalid-payload error →
400 (the claim's "other errors → 500" does not apply to it: its `status` is
400), leaving the store as the engine left it on error. -/
theorem claim_C7_replicate_receiver (body : JVal) (s : KState) :
    ((truthy body = false ∨ truthyO (jfieldV body "op") = false
        ∨ truthyO (jfieldV body "_id") = false) →
      replicatePost body s = (400, s))
    ∧ (truthy body = true → truthyO (jfieldV body "op") = true →
        truthyO (jfieldV body "_id") = true →
        jsEqO (jfieldV body "op") (some (.str "put")) = false →
        jsEqO (jfieldV body "op") (some (.str "del")) = false →
        replicatePost body s = (400, s))
    ∧ (truthy body = true → truthyO (jfieldV body "op") = true →
        truthyO (jfieldV body "_id") = true →
        jsEqO (jfieldV body "op") (some (.str "put")) = true →
        (truthyO (jfieldV body "doc") = false
          ∨ jsEqO (jfieldOpt (jfieldV body "doc") "_id") (jfieldV body "_id") = false
          ∨ jsEqO (jfieldOpt (jfieldV body "doc") "_rev") (jfieldV body "rev") = false) →
        replicatePost body s = (400, s))
    ∧ (∀ k, truthy body = true → truthyO (jfieldV body "op") = true →
        truthyO (jfieldV body "_id") = true →
        jfieldV body "_id" = some (.str k) →
        jsEqO (jfieldV body "op") (some (.str "put")) = true →
        truthyO (jfieldV body "doc") = true →
        jsEqO (jfieldOpt (jfieldV body "doc") "_id") (jfieldV body "_id") = true →
        jsEqO (jfieldOpt (jfieldV body "doc") "_rev") (jfieldV body "rev") = true →
        (∀ d s1, applyRemotePut k ((jfieldV body "doc").getD .null)
              (jfieldV body "prevRev") s = (.ok d, s1) →
            replicatePost body s = (200, s1))
        ∧ (∀ e s1, applyRemotePut k ((jfieldV body "doc").getD .null)
              (jfieldV body "prevRev") s = (.error e, s1) →
            replicatePost body s = (statusOf e, s)))
    ∧ (truthy body = true → truthyO (jfieldV body "op") = true →
        truthyO (jfieldV body "_id") = true →
        jsEqO (jfieldV body "op") (some (.str "del")) = true →
        (∀ s1, applyRemoteDel (jfieldV body "prevRev") s = (.ok (), s1) →
            replicatePost body s = (200, s1))
        ∧ (∀ e s1, applyRemoteDel (jfieldV body "prevRev") s = (.error e, s1) →
            replicatePost body s = (statusOf e, s)))
    ∧ statusOf .conflict = 409 ∧ statusOf .invalid = 400 := by
  have hput_ne_del : jsEqO (jfieldV body "op") (some (.str "del")) = true →
      jsEqO (jfieldV body "op") (some (.str "put")) = false := by
    intro h
    cases hop : jfieldV body "op" with
    | none => rw [hop] at h; exact absurd h (by simp [jsEqO])
    | some v =>
      rw [hop] at h
      cases v <;> simp_all [jsEqO, jsStrictEq]
  refine ⟨?_, ?_, ?_, ?_, ?_, rfl, rfl⟩
  · intro hfa
    rw [replicatePost, if_pos]
    rcases hfa with h | h | h <;> simp [h]
  · intro h1 h2 h3 hput hdel
    rw [replicatePost, if_neg (by simp [h1, h2, h3]), if_neg (by simp [hput]),
      if_neg (by simp [hdel])]
  · intro h1 h2 h3 hput hbad
    rw [replicatePost, if_neg (by simp [h1, h2, h3]), if_pos (by simp [hput]), if_pos]
    rcases hbad with h | h | h <;> simp [h]
  · intro k h1 h2 h3 hid hput hdoc hdid hdrev
    constructor
    · intro d s1 happ
      rw [replicatePost, if_neg (by simp [h1, h2, h3]), if_pos (by simp [hput]),
        if_neg (by simp [hdoc, hdid, hdrev]), hid]
      simp only [happ]
    · intro e s1 happ
      rw [replicatePost, if_neg (by simp [h1, h2, h3]), if_pos (by simp [hput]),
        if_neg (by simp [hdoc, hdid, hdrev]), hid]
      simp only [happ]
  · intro h1 h2 h3 hdel
    constructor
    · intro s1 happ
      rw [replicatePost, if_neg (by simp [h1, h2, h3]),
        if_neg (by simp [hput_ne_del hdel]), if_pos (by simp [hdel])]
      simp only [happ]
    · intro e s1 happ
      rw [replicatePost, if_neg (by simp [h1, h2, h3]),
        if_neg (by simp [hput_ne_del hdel]), if_pos (by simp [hdel])]
      simp only [happ]

/-- C7 witness: a valid put record is delegated and acknowledged with 200 and
the new state; a record with an unknown op gets 400 with the store
untouched. -/
theorem claim_C7_replicate_receiver_witness :
    replicatePost (.obj [("op", .str "put"), ("_id", .str "a"), ("rev", .str "1-01234567"),
        ("doc", .obj [("_id", .str "a"), ("_rev", .str "1-01234567")])]) none
      = (200, some (.json (.obj [("_id", .str "a"), ("_rev", .str "1-01234567")])))
    ∧ replicatePost (.obj [("op", .str "frob"), ("_id", .str "a")]) none = (400, none) :=
  ⟨((claim_C7_replicate_receiver
      (.obj [("op", .str "put"), ("_id", .str "a"), ("rev", .str "1-01234567"),
        ("doc", .obj [("_id", .str "a"), ("_rev", .str "1-01234567")])]) none).2.2.2.1
      "a" (by decide) (by decide) (by decide) rfl (by decide) (by decide)
      (by decide) (by decide)).1
      [("_id", .str "a"), ("_rev", .str "1-01234567")]
      (some (.json (.obj [("_id", .str "a"), ("_rev", .str "1-01234567")]))) rfl,
   (claim_C7_replicate_receiver (.obj [("op", .str "frob"), ("_id", .str "a")]) none).2.1
      (by decide) (by decide) (by decide) (by decide) (by decide)⟩

/-- C7 counterexample: a change record whose `_id` is the empty string — which
lacks nothing, has `op = "put"`, and has a `doc` matching `_id` and `rev`, so
the claim calls it valid and requires delegation (here: engine success, hence
200) — is rejected with 400 by the receiver's truthiness test. -/
theorem claim_C7_replicate_receiver_counterexample :
    replicatePost (.obj [("op", .str "put"), ("_id", .str ""), ("rev", .str "1-01234567"),
        ("doc", .obj [("_id", .str ""), ("_rev", .str "1-01234567")])]) none = (400, none)
    ∧ jfieldV (.obj [("op", .str "put"), ("_id", .str ""), ("rev", .str "1-01234567"),
        ("doc", .obj [("_id", .str ""), ("_rev", .str "1-01234567")])]) "op"
        = some (.str "put")
    ∧ jfieldV (.obj [("op", .str "put"), ("_id", .str ""), ("rev", .str "1-01234567"),
        ("doc", .obj [("_id", .str ""), ("_rev", .str "1-01234567")])]) "_id"
        = some (.str "")
    ∧ jsEqO (jfieldOpt (jfieldV (.obj [("op", .str "put"), ("_id", .str ""),
          ("rev", .str "1-01234567"),
          ("doc", .obj [("_id", .str ""), ("_rev", .str "1-01234567")])]) "doc") "_id")
        (jfieldV (.obj [("op", .str "put"), ("_id", .str ""), ("rev", .str "1-01234567"),
          ("doc", .obj [("_id", .str ""), ("_rev", .str "1-01234567")])]) "_id") = true
    ∧ jsEqO (jfieldOpt (jfieldV (.obj [("op", .str "put"), ("_id", .str ""),
          ("rev", .str "1-01234567"),
          ("doc", .obj [("_id", .str ""), ("_rev", .str "1-01234567")])]) "doc") "_rev")
        (jfieldV (.obj [("op", .str "put"), ("_id", .str ""), ("rev", .str "1-01234567"),
          ("doc", .obj [("_id", .str ""), ("_rev", .str "1-01234567")])]) "rev") = true
    ∧ applyRemotePut "" (.obj [("_id", .str ""), ("_rev", .str "1-01234567")]) none none
        = (.ok [("_id", .str ""), ("_rev", .str "1-01234567")],
           some (.json (.obj [("_id", .str ""), ("_rev", .str "1-01234567")]))) :=
  ⟨rfl, rfl, rfl, by decide, by decide, rfl⟩

example : truthy (.str "") = false := rfl
example : jset [("a", .num 1), ("b", .num 2)] "a" (.num 7)
    = [("a", .num 7), ("b", .num 2)] := rfl
example : spread [("a", .num 1)] [("b", .num 2)]
    = [("a", .num 1), ("b", .num 2)] := rfl
